import Mathlib

/-!
Verification of the realtime-db-migrator coordination core.

This file is a shallow embedding of the repository's TypeScript sources:

* `src/types/index.ts` — the `Phase`, `MigrationStatus`, `Migration` and
  `AckMessage` shapes;
* `src/coordinator/server.ts` — the `CoordinatorServer` class: its mutable
  fields become `CoordinatorState`, its methods (`handleConnection`'s
  registration / close effects, `handleAcknowledgment`, `broadcast`,
  `sendPhase`, `waitForAcknowledgments`, `rollback`, `startMigration`)
  become pure state-passing functions;
* `src/coordinator/migration-executor.ts` — `MigrationExecutor
  .executeMigrations`, embedded against an abstract transactional database
  (`PgClient`) parametrised by the semantics of individual SQL statements.

JavaScript `Map`s are embedded as association lists in insertion order,
`Set`s as duplicate-free lists in insertion order, and `Date` values as
ticks of a monotone counter.  The polling loop of `waitForAcknowledgments`
(a 100 ms `setInterval` racing a `setTimeout`) is embedded by an explicit
schedule: a list of `WaitEvent`s — connections, disconnections, inbound
acknowledgment messages and interval polls — whose exhaustion is the
timeout firing.  WebSocket channels are abstracted to their identifier;
every registered channel is modelled as open.
-/

namespace RtDbMigrator

/-- `Phase` from `src/types/index.ts`. -/
inductive Phase
  | ANNOUNCE
  | EXECUTE
  | APPLY
  | CONFIRM
  | ROLLBACK
deriving DecidableEq, Repr

instance : Fintype Phase :=
  ⟨⟨[Phase.ANNOUNCE, Phase.EXECUTE, Phase.APPLY, Phase.CONFIRM, Phase.ROLLBACK],
    by decide⟩, fun x => by cases x <;> decide⟩

/-- `MigrationStatus` from `src/types/index.ts`. -/
inductive MigrationStatus
  | PENDING
  | ANNOUNCING
  | EXECUTING
  | APPLYING
  | COMPLETED
  | FAILED
deriving DecidableEq, Repr

/-- The `"RUNNING" | "COMPLETED" | "FAILED"` sub-status carried by EXECUTE
phase messages (`PhaseMessage.status` in `src/types/index.ts`). -/
inductive ExecStatus
  | RUNNING
  | COMPLETED
  | FAILED
deriving DecidableEq, Repr

/-- The `"ACKNOWLEDGED" | "ERROR"` field of `AckMessage`. -/
inductive AckStatus
  | ACKNOWLEDGED
  | ERROR
deriving DecidableEq, Repr

/-- `Migration` from `src/types/index.ts`; `Date`s are modelled as `Nat`
ticks, the optional `completedAt` as an `Option Nat`. -/
structure Migration where
  id : String
  name : String
  sql : List String
  status : MigrationStatus
  completedAt : Option Nat
  startedAt : Nat
deriving DecidableEq, Repr

/-- `AckMessage` from `src/types/index.ts`.  Note that the shape carries no
migration identifier: an acknowledgment names only a phase. -/
structure AckMessage where
  phase : Phase
  status : AckStatus
  appId : String
  error : Option String
deriving DecidableEq, Repr

/-- JS `Set.add`: insert at the end when absent (insertion-ordered,
duplicate-free list). -/
def setAdd (s : List String) (x : String) : List String :=
  if x ∈ s then s else s ++ [x]

/-- JS `Map.get` on a `Map<Phase, Set<string>>` embedded as an association
list: the value at the first matching key; `none` is JavaScript's
`undefined`. -/
def mapGet : List (Phase × List String) → Phase → Option (List String)
  | [], _ => none
  | e :: t, p => if e.1 = p then some e.2 else mapGet t p

/-- JS `Map.set`: overwrite in place when the key exists, append otherwise
(keys are unique, so replacing the first match is replacing the match). -/
def mapSet : List (Phase × List String) → Phase → List String →
    List (Phase × List String)
  | [], p, v => [(p, v)]
  | e :: t, p, v => if e.1 = p then (p, v) :: t else e :: mapSet t p v

/-- The mutable fields of `CoordinatorServer` that the protocol reads:
`apps` (the keys of `Map<string, WebSocket>`; the socket handles are
abstracted away, every registered channel being open), `currentMigration`,
and `acknowledgments : Map<Phase, Set<string>>`. -/
structure CoordinatorState where
  apps : List String
  currentMigration : Option Migration
  acknowledgments : List (Phase × List String)
deriving DecidableEq, Repr

/-- `handleConnection`'s registration effect: `this.apps.set(appId, ws)`
(the `appId` is a fresh uuid, so the key is new). -/
def connectApp (st : CoordinatorState) (appId : String) : CoordinatorState :=
  { st with apps := setAdd st.apps appId }

/-- The `ws.on("close")` handler: `this.apps.delete(appId)`.  The
acknowledgment sets are untouched by a disconnect. -/
def disconnectApp (st : CoordinatorState) (appId : String) : CoordinatorState :=
  { st with apps := st.apps.filter (fun a => a ≠ appId) }

/-- `handleAcknowledgment(appId, message)` from `server.ts`: ensure a set
exists for `message.phase`, then add the connection's `appId` to it.  No
other field of the message — in particular not its `status` — is read, and
no other coordinator state is written (the trailing count comparison only
logs). -/
def handleAcknowledgment (st : CoordinatorState) (appId : String)
    (message : AckMessage) : CoordinatorState :=
  let acks :=
    if (mapGet st.acknowledgments message.phase).isSome then st.acknowledgments
    else mapSet st.acknowledgments message.phase []
  { st with
    acknowledgments :=
      mapSet acks message.phase (setAdd ((mapGet acks message.phase).getD []) appId) }

/-- One occurrence during a `waitForAcknowledgments` call: a connection, a
disconnection, an inbound acknowledgment message (handled with the
connection's `appId`), or one firing of the 100 ms polling interval. -/
inductive WaitEvent
  | connect (appId : String)
  | disconnect (appId : String)
  | ackMsg (appId : String) (message : AckMessage)
  | poll
deriving DecidableEq, Repr

/-- The coordinator-state effect of a single non-poll event. -/
def stepEvent (st : CoordinatorState) : WaitEvent → CoordinatorState
  | WaitEvent.connect a => connectApp st a
  | WaitEvent.disconnect a => disconnectApp st a
  | WaitEvent.ackMsg a m => handleAcknowledgment st a m
  | WaitEvent.poll => st

/-- The `setInterval` body of `waitForAcknowledgments`:
`this.acknowledgments.get(phase)?.size === this.apps.size`.  Both sides are
read live at the poll instant; a missing set (`undefined`) never equals a
number. -/
def quorumReached (st : CoordinatorState) (phase : Phase) : Bool :=
  match mapGet st.acknowledgments phase with
  | some s => s.length == st.apps.length
  | none => false

/-- The race inside `waitForAcknowledgments` after the set reset: events
happen in schedule order; the first poll that observes quorum resolves the
promise with `true`; exhausting the schedule is the `setTimeout` firing,
which rejects (`false`). -/
def runWait (st : CoordinatorState) (phase : Phase) :
    List WaitEvent → Bool × CoordinatorState
  | [] => (false, st)
  | WaitEvent.poll :: rest =>
      if quorumReached st phase then (true, st) else runWait st phase rest
  | WaitEvent.connect a :: rest => runWait (connectApp st a) phase rest
  | WaitEvent.disconnect a :: rest => runWait (disconnectApp st a) phase rest
  | WaitEvent.ackMsg a m :: rest => runWait (handleAcknowledgment st a m) phase rest

/-- `waitForAcknowledgments(phase, timeout)`: the promise body first resets
the phase's acknowledgment set (`this.acknowledgments.set(phase, new
Set())`), then the interval/timeout race runs over the schedule. -/
def waitForAcknowledgments (st : CoordinatorState) (phase : Phase)
    (events : List WaitEvent) : Bool × CoordinatorState :=
  runWait { st with acknowledgments := mapSet st.acknowledgments phase [] } phase events

/-! ## Migration executor (`src/coordinator/migration-executor.ts`)

The executor talks to a `pg` pool; the database boundary is embedded as an
abstract type `DB` of committed schema states together with a semantics
`sem : DB → String → Except String DB` for individual data statements.  A
pooled client session (`PgClient`) carries the committed state, the
optional working copy of an open transaction, and whether the session has
been released back to the pool. -/

/-- A pooled database client session. -/
structure PgClient (DB : Type) where
  committed : DB
  txn : Option DB
  released : Bool
deriving DecidableEq, Repr

/-- `client.query(q)` at the database boundary: `BEGIN` opens a working
copy of the committed state, `COMMIT` installs the working copy,
`ROLLBACK` discards it, and any other string is a data statement run by
`sem` against the working copy (or, outside a transaction, autocommitted).
A failing data statement leaves the session state unchanged and raises the
statement's error. -/
def runQuery {DB : Type} (sem : DB → String → Except String DB)
    (c : PgClient DB) (q : String) : Except String (PgClient DB) :=
  if q = "BEGIN" then Except.ok { c with txn := some c.committed }
  else if q = "COMMIT" then
    match c.txn with
    | some d => Except.ok { c with committed := d, txn := none }
    | none => Except.ok c
  else if q = "ROLLBACK" then Except.ok { c with txn := none }
  else
    match c.txn with
    | some d =>
      match sem d q with
      | Except.ok d2 => Except.ok { c with txn := some d2 }
      | Except.error e => Except.error e
    | none =>
      match sem c.committed q with
      | Except.ok d2 => Except.ok { c with committed := d2 }
      | Except.error e => Except.error e

/-- The `for (const query of sql)` loop inside the `try` block: statements
run in listed order; the first raised error aborts the loop, carrying the
session state at the failure for the `catch` block. -/
def runStatementLoop {DB : Type} (sem : DB → String → Except String DB)
    (c : PgClient DB) : List String → Except (String × PgClient DB) (PgClient DB)
  | [] => Except.ok c
  | q :: rest =>
    match runQuery sem c q with
    | Except.ok c2 => runStatementLoop sem c2 rest
    | Except.error e => Except.error (e, c)

/-- The value of `executeMigrations`' returned promise
(`{ success, error? }`) together with the final session state, on which
the committed schema and the `release()` of the `finally` block are
observed. -/
structure ExecResult (DB : Type) where
  success : Bool
  error : Option String
  client : PgClient DB
deriving DecidableEq, Repr

/-- `MigrationExecutor.executeMigrations(sql)`: acquire a client, `BEGIN`,
run each statement in order, `COMMIT`; on any raised error the `catch`
block issues `ROLLBACK` and reports `{ success: false, error }`; the
`finally` block releases the client on every path.  (`BEGIN`, `COMMIT`
and `ROLLBACK` cannot themselves fail in this model of the database
boundary, so the corresponding error arms are unreachable; they still
release the client.) -/
def executeMigrations {DB : Type} (sem : DB → String → Except String DB)
    (db : DB) (sql : List String) : ExecResult DB :=
  let client : PgClient DB := { committed := db, txn := none, released := false }
  match runQuery sem client "BEGIN" with
  | Except.error e =>
    { success := false, error := some e, client := { client with released := true } }
  | Except.ok c1 =>
    match runStatementLoop sem c1 sql with
    | Except.error (e, c2) =>
      match runQuery sem c2 "ROLLBACK" with
      | Except.ok c3 =>
        { success := false, error := some e, client := { c3 with released := true } }
      | Except.error _ =>
        { success := false, error := some e, client := { c2 with released := true } }
    | Except.ok c2 =>
      match runQuery sem c2 "COMMIT" with
      | Except.ok c3 =>
        { success := true, error := none, client := { c3 with released := true } }
      | Except.error e =>
        match runQuery sem c2 "ROLLBACK" with
        | Except.ok c3 =>
          { success := false, error := some e, client := { c3 with released := true } }
        | Except.error _ =>
          { success := false, error := some e, client := { c2 with released := true } }

/-- Reference semantics used to compare against `executeMigrations`: apply
each statement of the list in listed order directly to the schema state,
stopping at the first error (the specification's "applies each statement
in listed order"). -/
def applyStatements {DB : Type} (sem : DB → String → Except String DB)
    (db : DB) : List String → Except String DB
  | [] => Except.ok db
  | q :: rest =>
    match sem db q with
    | Except.ok d2 => applyStatements sem d2 rest
    | Except.error e => Except.error e

/-- A migration statement that is not one of the executor's own
transaction-control keywords. -/
def isTxnControl (q : String) : Bool :=
  q = "BEGIN" || q = "COMMIT" || q = "ROLLBACK"

/-! ## The coordinator run (`startMigration` in `src/coordinator/server.ts`)

`startMigration` suspends twice on `waitForAcknowledgments` and once on the
executor.  The environment of one run supplies the event schedule of each
wait and the database boundary; the run's observable effects — the final
migration object, the final coordinator state, every broadcast `sendPhase`
message with its recipients, the order of phase broadcasts and
acknowledgment-set resets, and the executor invocations — are collected in
a `RunResult`. -/

/-- One `sendPhase` broadcast as observed on the wire: the `PhaseMessage`
fields plus the participants it was fanned out to (`this.apps` at send
time; every registered channel is open in this model). -/
structure PhaseBroadcast where
  phase : Phase
  migrationId : String
  status : Option ExecStatus
  timestamp : Nat
  recipients : List String
deriving DecidableEq, Repr

/-- The order-sensitive operations of a run, for stating in which order the
coordinator broadcasts a phase, resets an acknowledgment set, and invokes
the executor. -/
inductive CoordOp
  | sendPhaseOp (phase : Phase)
  | resetAcks (phase : Phase)
  | invokeExecutor
deriving DecidableEq, Repr

/-- The environment of one `startMigration` run: the statement semantics
and initial schema state behind the executor's pool, and the event
schedule of each acknowledgment wait. -/
structure RunEnv (DB : Type) where
  sem : DB → String → Except String DB
  db : DB
  announceEvents : List WaitEvent
  applyEvents : List WaitEvent

/-- Everything a run of `startMigration` did: the migration object as the
caller observes it afterwards, the final coordinator state, the broadcasts
in order, the operation trace, and the executor invocations (count and
result of the at-most-one call). -/
structure RunResult (DB : Type) where
  migration : Migration
  finalState : CoordinatorState
  broadcasts : List PhaseBroadcast
  ops : List CoordOp
  executorCalls : Nat
  executorResult : Option (ExecResult DB)

/-- The threaded state of a run while `startMigration` executes. -/
structure RunState (DB : Type) where
  coord : CoordinatorState
  mig : Migration
  broadcasts : List PhaseBroadcast
  ops : List CoordOp
  executorCalls : Nat
  executorResult : Option (ExecResult DB)
  clock : Nat

/-- `sendPhase(phase, status?)`: build the `PhaseMessage` (with a fresh
`new Date()` tick and `this.currentMigration!.id`) and `broadcast` it to
every connected participant. -/
def sendPhase {DB : Type} (rs : RunState DB) (phase : Phase)
    (status : Option ExecStatus) : RunState DB :=
  { rs with
    broadcasts := rs.broadcasts ++
      [{ phase := phase
         migrationId := rs.mig.id
         status := status
         timestamp := rs.clock
         recipients := rs.coord.apps }]
    ops := rs.ops ++ [CoordOp.sendPhaseOp phase]
    clock := rs.clock + 1 }

/-- A `this.currentMigration.status = s` mutation (the run's migration
object is the aliased `currentMigration`). -/
def setStatus {DB : Type} (rs : RunState DB) (s : MigrationStatus) : RunState DB :=
  { rs with mig := { rs.mig with status := s } }

/-- `rollback(reason)` from `server.ts`: the reason is only written to the
console — nothing of it reaches the migration object — the status becomes
FAILED and ROLLBACK is broadcast. -/
def rollbackRun {DB : Type} (rs : RunState DB) (_reason : String) : RunState DB :=
  sendPhase (setStatus rs MigrationStatus.FAILED) Phase.ROLLBACK none

/-- Returning from `startMigration`: the caller observes the migration
object; the coordinator's `currentMigration` still aliases it. -/
def finishRun {DB : Type} (rs : RunState DB) : RunResult DB :=
  { migration := rs.mig
    finalState := { rs.coord with currentMigration := some rs.mig }
    broadcasts := rs.broadcasts
    ops := rs.ops
    executorCalls := rs.executorCalls
    executorResult := rs.executorResult }

/-- `startMigration(migration)`: set the migration as current with status
ANNOUNCING and a start timestamp; broadcast ANNOUNCE and await its quorum
(30 s); on success broadcast EXECUTE(RUNNING), invoke the executor once on
`migration.sql`, and on executor success broadcast EXECUTE(COMPLETED) and
APPLY and await the APPLY quorum (30 s); on success set status COMPLETED
with a completion timestamp and broadcast CONFIRM.  A rejected wait is
caught by the surrounding `try`/`catch` and, like an executor failure,
funnels into `rollback` — so the function always returns (never throws)
with the migration in a terminal status. -/
def startMigration {DB : Type} (env : RunEnv DB) (st : CoordinatorState)
    (migration : Migration) : RunResult DB :=
  let m0 : Migration :=
    { migration with status := MigrationStatus.ANNOUNCING, startedAt := 0 }
  let rs0 : RunState DB :=
    { coord := { st with currentMigration := some m0 }
      mig := m0
      broadcasts := []
      ops := []
      executorCalls := 0
      executorResult := none
      clock := 1 }
  let rs1 := sendPhase rs0 Phase.ANNOUNCE none
  match waitForAcknowledgments rs1.coord Phase.ANNOUNCE env.announceEvents with
  | (ok1, stW1) =>
    let rs2 : RunState DB :=
      { rs1 with coord := stW1, ops := rs1.ops ++ [CoordOp.resetAcks Phase.ANNOUNCE] }
    if ok1 then
      let rs3 := sendPhase (setStatus rs2 MigrationStatus.EXECUTING)
        Phase.EXECUTE (some ExecStatus.RUNNING)
      let r := executeMigrations env.sem env.db migration.sql
      let rs4 : RunState DB :=
        { rs3 with
          executorCalls := rs3.executorCalls + 1
          executorResult := some r
          ops := rs3.ops ++ [CoordOp.invokeExecutor] }
      if r.success then
        let rs5 := sendPhase rs4 Phase.EXECUTE (some ExecStatus.COMPLETED)
        let rs6 := sendPhase (setStatus rs5 MigrationStatus.APPLYING) Phase.APPLY none
        match waitForAcknowledgments rs6.coord Phase.APPLY env.applyEvents with
        | (ok2, stW2) =>
          let rs7 : RunState DB :=
            { rs6 with coord := stW2, ops := rs6.ops ++ [CoordOp.resetAcks Phase.APPLY] }
          if ok2 then
            let rs8 := setStatus rs7 MigrationStatus.COMPLETED
            let rs9 : RunState DB :=
              { rs8 with
                mig := { rs8.mig with completedAt := some rs8.clock }
                clock := rs8.clock + 1 }
            finishRun (sendPhase rs9 Phase.CONFIRM none)
          else
            finishRun (rollbackRun rs7 "Timeout: APPLY quorum not reached")
      else
        finishRun (rollbackRun rs4 "Migration execution failed")
    else
      finishRun (rollbackRun rs2 "Timeout: ANNOUNCE quorum not reached")

/-! ## Concrete inputs for witnesses and counterexamples -/

/-- A concrete schema state: the log of applied statements. -/
abbrev LogDB := List String

/-- A concrete statement semantics: the literal statement `"FAIL"` raises
an error, any other statement appends itself to the log. -/
def semLog (db : LogDB) (q : String) : Except String LogDB :=
  if q = "FAIL" then Except.error "syntax error at FAIL" else Except.ok (db ++ [q])

/-- Three participants connected, no migration, no acknowledgment sets. -/
def stABC : CoordinatorState :=
  { apps := ["a", "b", "c"], currentMigration := none, acknowledgments := [] }

/-- Two participants connected. -/
def stAB : CoordinatorState :=
  { apps := ["a", "b"], currentMigration := none, acknowledgments := [] }

/-- No participants connected. -/
def stNone : CoordinatorState :=
  { apps := [], currentMigration := none, acknowledgments := [] }

/-- The wait event of participant `appId` acknowledging phase `p`. -/
def ackEvent (p : Phase) (appId : String) : WaitEvent :=
  WaitEvent.ackMsg appId
    { phase := p, status := AckStatus.ACKNOWLEDGED, appId := appId, error := none }

/-- ANNOUNCE wait schedule: a, b and c acknowledge, then a poll. -/
def annAll3 : List WaitEvent :=
  [ackEvent Phase.ANNOUNCE "a", ackEvent Phase.ANNOUNCE "b",
   ackEvent Phase.ANNOUNCE "c", WaitEvent.poll]

/-- ANNOUNCE wait schedule: only a and b acknowledge before the timeout. -/
def annAB : List WaitEvent :=
  [ackEvent Phase.ANNOUNCE "a", ackEvent Phase.ANNOUNCE "b", WaitEvent.poll]

/-- APPLY wait schedule: a, b and c acknowledge, then a poll. -/
def appAll3 : List WaitEvent :=
  [ackEvent Phase.APPLY "a", ackEvent Phase.APPLY "b",
   ackEvent Phase.APPLY "c", WaitEvent.poll]

/-- APPLY wait schedule of the spec's Scenario D: c disconnects without
acknowledging, the remaining two acknowledge, then a poll. -/
def appDisc : List WaitEvent :=
  [WaitEvent.disconnect "c", ackEvent Phase.APPLY "a",
   ackEvent Phase.APPLY "b", WaitEvent.poll]

/-- APPLY wait schedule of the late-joiner scenario: c connects mid-wait
and never acknowledges; both original participants acknowledge. -/
def appLateNoAck : List WaitEvent :=
  [WaitEvent.connect "c", ackEvent Phase.APPLY "a",
   ackEvent Phase.APPLY "b", WaitEvent.poll]

/-- As `appLateNoAck`, but the late joiner also acknowledges. -/
def appLateAck : List WaitEvent :=
  [WaitEvent.connect "c", ackEvent Phase.APPLY "a",
   ackEvent Phase.APPLY "b", ackEvent Phase.APPLY "c", WaitEvent.poll]

/-- Happy-path environment for three participants. -/
def envHappy : RunEnv LogDB :=
  { sem := semLog, db := [], announceEvents := annAll3, applyEvents := appAll3 }

/-- Scenario D environment: full ANNOUNCE quorum, then `appDisc`. -/
def envDisc : RunEnv LogDB :=
  { sem := semLog, db := [], announceEvents := annAll3, applyEvents := appDisc }

/-- ANNOUNCE-timeout environment: with three participants connected only
two acknowledge, so every poll fails and the timeout fires. -/
def envAnnTimeout : RunEnv LogDB :=
  { sem := semLog, db := [], announceEvents := annAB, applyEvents := appAll3 }

/-- Late-joiner environment for `stAB`: both connected participants
acknowledge ANNOUNCE; during the APPLY wait `appLateNoAck` happens. -/
def envLateNoAck : RunEnv LogDB :=
  { sem := semLog, db := [], announceEvents := annAB, applyEvents := appLateNoAck }

/-- As `envLateNoAck` but the late joiner acknowledges APPLY. -/
def envLateAck : RunEnv LogDB :=
  { sem := semLog, db := [], announceEvents := annAB, applyEvents := appLateAck }

/-- Environment with no participants: each wait schedule is a single poll. -/
def envNone : RunEnv LogDB :=
  { sem := semLog, db := [], announceEvents := [WaitEvent.poll],
    applyEvents := [WaitEvent.poll] }

/-- A two-statement migration whose statements both succeed under `semLog`. -/
def migOk : Migration :=
  { id := "m1", name := "add-email", sql := ["s1", "s2"],
    status := MigrationStatus.PENDING, completedAt := none, startedAt := 0 }

/-- A migration whose second statement fails under `semLog`. -/
def migBad : Migration :=
  { id := "m2", name := "bad-change", sql := ["s1", "FAIL"],
    status := MigrationStatus.PENDING, completedAt := none, startedAt := 0 }

/-- Events that can occur during a wait without involving a given outsider:
interval polls, and acknowledgment messages handled for connections whose
identifiers lie in `base`.  (No connection or disconnection events.) -/
def benignFor (base : List String) : WaitEvent → Bool
  | WaitEvent.poll => true
  | WaitEvent.ackMsg a _ => decide (a ∈ base)
  | _ => false

/-! ## Lemmas about the embedded map and the polling wait -/

theorem mapGet_mapSet_self (m : List (Phase × List String)) (p : Phase)
    (v : List String) : mapGet (mapSet m p v) p = some v := by
  induction m with
  | nil => simp [mapGet, mapSet]
  | cons e t ih =>
    by_cases h : e.1 = p
    · simp [mapGet, mapSet, h]
    · simp [mapGet, mapSet, h, ih]

theorem mapGet_mapSet_ne (m : List (Phase × List String)) {p q : Phase}
    (v : List String) (h : q ≠ p) : mapGet (mapSet m q v) p = mapGet m p := by
  induction m with
  | nil => simp [mapGet, mapSet, h]
  | cons e t ih =>
    by_cases he : e.1 = q
    · simp [mapGet, mapSet, he, h]
    · simp only [mapSet, he, if_false]
      by_cases hp : e.1 = p <;> simp [mapGet, hp, ih]

/-- `handleAcknowledgment` only touches the acknowledgment set of the
message's phase. -/
theorem handleAck_acks_ne (st : CoordinatorState) (appId : String)
    (msg : AckMessage) {p : Phase} (h : msg.phase ≠ p) :
    mapGet (handleAcknowledgment st appId msg).acknowledgments p =
      mapGet st.acknowledgments p := by
  unfold handleAcknowledgment
  by_cases hs : (mapGet st.acknowledgments msg.phase).isSome <;>
    simp [hs, mapGet_mapSet_ne _ _ h]

/-- `handleAcknowledgment` leaves `apps` and `currentMigration` unchanged. -/
theorem handleAck_apps (st : CoordinatorState) (appId : String)
    (msg : AckMessage) : (handleAcknowledgment st appId msg).apps = st.apps := rfl

/-- `handleAcknowledgment` at the message's own phase: the connection's
identifier is inserted into that phase's set (which is created empty when
absent). -/
theorem handleAck_acks_self (st : CoordinatorState) (appId : String)
    (msg : AckMessage) :
    mapGet (handleAcknowledgment st appId msg).acknowledgments msg.phase =
      some (setAdd ((mapGet st.acknowledgments msg.phase).getD []) appId) := by
  unfold handleAcknowledgment
  by_cases hs : (mapGet st.acknowledgments msg.phase).isSome
  · simp [hs, mapGet_mapSet_self]
  · simp [hs, mapGet_mapSet_self]
    cases hm : mapGet st.acknowledgments msg.phase with
    | none => simp
    | some s => rw [hm] at hs; simp at hs

theorem setAdd_nodup {s : List String} {x : String} (h : s.Nodup) :
    (setAdd s x).Nodup := by
  unfold setAdd
  split
  · exact h
  · next hx => simp [List.nodup_append, h, hx]

theorem setAdd_subset {s base : List String} {x : String}
    (hs : ∀ y ∈ s, y ∈ base) (hx : x ∈ base) : ∀ y ∈ setAdd s x, y ∈ base := by
  intro y hy
  unfold setAdd at hy
  split at hy
  · exact hs y hy
  · rcases List.mem_append.mp hy with h | h
    · exact hs y h
    · simp at h; subst h; exact hx

/-- The polling wait resolves with `true` exactly when some interval poll
observes, on the coordinator state current at that poll, an acknowledgment
set whose size equals the number of participants connected at that same
instant. -/
theorem runWait_eq_true_iff (phase : Phase) :
    ∀ (events : List WaitEvent) (st : CoordinatorState),
      (runWait st phase events).1 = true ↔
        ∃ pre post, events = pre ++ WaitEvent.poll :: post ∧
          quorumReached (pre.foldl stepEvent st) phase = true := by
  intro events
  induction events with
  | nil =>
    intro st
    simp [runWait]
  | cons e rest ih =>
    intro st
    cases e with
    | poll =>
      by_cases h : quorumReached st phase = true
      · simp only [runWait, h, if_true]
        constructor
        · intro _
          exact ⟨[], rest, rfl, by simpa using h⟩
        · intro _
          trivial
      · rw [Bool.not_eq_true] at h
        simp only [runWait, h, Bool.false_eq_true, if_false]
        rw [ih st]
        constructor
        · rintro ⟨pre, post, hd, hq⟩
          exact ⟨WaitEvent.poll :: pre, post, by simp [hd],
            by simpa [stepEvent] using hq⟩
        · rintro ⟨pre, post, hd, hq⟩
          cases pre with
          | nil =>
            simp only [List.nil_append, List.cons.injEq] at hd
            rw [List.foldl_nil] at hq
            rw [h] at hq
            exact absurd hq (by simp)
          | cons e' pre' =>
            simp only [List.cons_append, List.cons.injEq] at hd
            obtain ⟨he', hrest⟩ := hd
            subst he'
            exact ⟨pre', post, hrest, by simpa [stepEvent] using hq⟩
    | connect a =>
      simp only [runWait]
      rw [ih (connectApp st a)]
      constructor
      · rintro ⟨pre, post, hd, hq⟩
        exact ⟨WaitEvent.connect a :: pre, post, by simp [hd],
          by simpa [stepEvent] using hq⟩
      · rintro ⟨pre, post, hd, hq⟩
        cases pre with
        | nil => simp at hd
        | cons e' pre' =>
          simp only [List.cons_append, List.cons.injEq] at hd
          obtain ⟨he', hrest⟩ := hd
          subst he'
          exact ⟨pre', post, hrest, by simpa [stepEvent] using hq⟩
    | disconnect a =>
      simp only [runWait]
      rw [ih (disconnectApp st a)]
      constructor
      · rintro ⟨pre, post, hd, hq⟩
        exact ⟨WaitEvent.disconnect a :: pre, post, by simp [hd],
          by simpa [stepEvent] using hq⟩
      · rintro ⟨pre, post, hd, hq⟩
        cases pre with
        | nil => simp at hd
        | cons e' pre' =>
          simp only [List.cons_append, List.cons.injEq] at hd
          obtain ⟨he', hrest⟩ := hd
          subst he'
          exact ⟨pre', post, hrest, by simpa [stepEvent] using hq⟩
    | ackMsg a msg =>
      simp only [runWait]
      rw [ih (handleAcknowledgment st a msg)]
      constructor
      · rintro ⟨pre, post, hd, hq⟩
        exact ⟨WaitEvent.ackMsg a msg :: pre, post, by simp [hd],
          by simpa [stepEvent] using hq⟩
      · rintro ⟨pre, post, hd, hq⟩
        cases pre with
        | nil => simp at hd
        | cons e' pre' =>
          simp only [List.cons_append, List.cons.injEq] at hd
          obtain ⟨he', hrest⟩ := hd
          subst he'
          exact ⟨pre', post, hrest, by simpa [stepEvent] using hq⟩

/-- While the connected set is `base ++ [c]` and only polls and
acknowledgments from `base` occur, no poll can observe quorum: the
acknowledgment set stays inside `base`, one short of the live participant
count, so the wait runs out its schedule (the timeout fires). -/
theorem runWait_stalls_without_c (base : List String) (c : String) (p : Phase) :
    ∀ (evs : List WaitEvent) (st : CoordinatorState),
      st.apps = base ++ [c] →
      (∀ s, mapGet st.acknowledgments p = some s → s.Nodup ∧ ∀ x ∈ s, x ∈ base) →
      (∀ e ∈ evs, benignFor base e = true) →
      (runWait st p evs).1 = false := by
  intro evs
  induction evs with
  | nil => intro st _ _ _; rfl
  | cons e rest ih =>
    intro st happs hack hev
    cases e with
    | poll =>
      have hq : quorumReached st p = false := by
        unfold quorumReached
        cases hm : mapGet st.acknowledgments p with
        | none => rfl
        | some s =>
          obtain ⟨hnd, hsub⟩ := hack s hm
          have hle : s.length ≤ base.length :=
            (hnd.subperm fun {y} hy => hsub y hy).length_le
          have hne : s.length ≠ st.apps.length := by
            rw [happs, List.length_append, List.length_singleton]
            omega
          simpa using hne
      simp only [runWait, hq, Bool.false_eq_true, if_false]
      exact ih st happs hack (fun e he => hev e (List.mem_cons_of_mem _ he))
    | connect a =>
      have := hev _ (List.mem_cons_self _ _)
      simp [benignFor] at this
    | disconnect a =>
      have := hev _ (List.mem_cons_self _ _)
      simp [benignFor] at this
    | ackMsg a msg =>
      have ha : a ∈ base := by
        have := hev _ (List.mem_cons_self _ _)
        simpa [benignFor] using this
      simp only [runWait]
      apply ih (handleAcknowledgment st a msg)
      · rw [handleAck_apps]; exact happs
      · intro s hs
        by_cases hphase : msg.phase = p
        · rw [← hphase] at hs
          rw [handleAck_acks_self] at hs
          injection hs with hs
          subst hs
          rw [hphase]
          cases hm : mapGet st.acknowledgments p with
          | none =>
            simp only [hm, Option.getD_none]
            exact ⟨setAdd_nodup List.nodup_nil, setAdd_subset (by simp) ha⟩
          | some s0 =>
            obtain ⟨hnd0, hsub0⟩ := hack s0 hm
            simp only [hm, Option.getD_some]
            exact ⟨setAdd_nodup hnd0, setAdd_subset hsub0 ha⟩
        · rw [handleAck_acks_ne st a msg hphase] at hs
          exact hack s hs
      · exact fun e he => hev e (List.mem_cons_of_mem _ he)

/-- With no participant connected and a schedule that reaches a first
poll, the wait resolves successfully at once: the freshly reset set has
size zero and so does the live participant count. -/
theorem waitFor_no_apps (st : CoordinatorState) (p : Phase)
    (evs : List WaitEvent) (happs : st.apps = [])
    (hne : evs ≠ []) (hp : ∀ e ∈ evs, e = WaitEvent.poll) :
    waitForAcknowledgments st p evs =
      (true, { st with acknowledgments := mapSet st.acknowledgments p [] }) := by
  cases evs with
  | nil => exact absurd rfl hne
  | cons e rest =>
    have he := hp e (List.mem_cons_self _ _)
    subst he
    unfold waitForAcknowledgments
    have hq : quorumReached
        { st with acknowledgments := mapSet st.acknowledgments p [] } p = true := by
      unfold quorumReached
      simp [mapGet_mapSet_self, happs]
    simp [runWait, hq]

/-- The statement loop inside the executor's transaction refines the
sequential reference semantics: with an open working copy `d` and no
transaction-control keyword among the statements, the loop succeeds with
working copy `dF` exactly when the reference run does, and a reference
failure `e` aborts the loop with error `e`, the session's committed state
untouched. -/
theorem runStatementLoop_spec {DB : Type} (sem : DB → String → Except String DB) :
    ∀ (sql : List String) (c : PgClient DB) (d : DB),
      c.txn = some d → (∀ q ∈ sql, isTxnControl q = false) →
      (∀ dF, applyStatements sem d sql = Except.ok dF →
        runStatementLoop sem c sql = Except.ok { c with txn := some dF }) ∧
      (∀ e, applyStatements sem d sql = Except.error e →
        ∃ d2, runStatementLoop sem c sql = Except.error (e, { c with txn := some d2 })) := by
  intro sql
  induction sql with
  | nil =>
    rintro ⟨comm, ctxn, crel⟩ d htxn _
    simp only at htxn
    subst htxn
    constructor
    · intro dF hF
      simp only [applyStatements, Except.ok.injEq] at hF
      subst hF
      simp [runStatementLoop]
    · intro e hE
      simp [applyStatements] at hE
  | cons q rest ih =>
    rintro ⟨comm, ctxn, crel⟩ d htxn hctrl
    simp only at htxn
    subst htxn
    have hq := hctrl q (List.mem_cons_self _ _)
    simp only [isTxnControl, Bool.or_eq_false_iff, decide_eq_false_iff_not] at hq
    obtain ⟨⟨hq1, hq2⟩, hq3⟩ := hq
    have hrq : runQuery sem ⟨comm, some d, crel⟩ q =
        match sem d q with
        | Except.ok d2 => Except.ok ⟨comm, some d2, crel⟩
        | Except.error e => Except.error e := by
      unfold runQuery
      rw [if_neg hq1, if_neg hq2, if_neg hq3]
    cases hsem : sem d q with
    | ok d2 =>
      have hloop : runStatementLoop sem ⟨comm, some d, crel⟩ (q :: rest) =
          runStatementLoop sem ⟨comm, some d2, crel⟩ rest := by
        simp only [runStatementLoop]
        rw [hrq, hsem]
      have happly : applyStatements sem d (q :: rest) =
          applyStatements sem d2 rest := by
        simp only [applyStatements]
        rw [hsem]
      obtain ⟨ihok, iherr⟩ := ih ⟨comm, some d2, crel⟩ d2 rfl
        (fun x hx => hctrl x (List.mem_cons_of_mem _ hx))
      constructor
      · intro dF hF
        rw [happly] at hF
        rw [hloop]
        exact ihok dF hF
      · intro e hE
        rw [happly] at hE
        rw [hloop]
        exact iherr e hE
    | error e0 =>
      have hloop : runStatementLoop sem ⟨comm, some d, crel⟩ (q :: rest) =
          Except.error (e0, ⟨comm, some d, crel⟩) := by
        simp only [runStatementLoop]
        rw [hrq, hsem]
      have happly : applyStatements sem d (q :: rest) = Except.error e0 := by
        simp only [applyStatements]
        rw [hsem]
      constructor
      · intro dF hF
        rw [happly] at hF
        exact absurd hF (by simp)
      · intro e hE
        rw [happly] at hE
        injection hE with hE
        subst hE
        exact ⟨d, by rw [hloop]⟩

/-! ## Sanity checks on the concrete scenarios -/

example : (startMigration envHappy stABC migOk).migration.status =
    MigrationStatus.COMPLETED := by decide

example : (startMigration envHappy stABC migOk).migration.completedAt.isSome =
    true := by decide

example : (startMigration envHappy stABC migBad).migration.status =
    MigrationStatus.FAILED := by decide

example : (executeMigrations semLog [] ["s1", "s2"]).client.committed =
    ["s1", "s2"] := by decide

/-! ## The claims -/

/-- C1 (counterexample): the spec's Scenario D — three participants
connected at the start of the APPLY wait, `c` disconnecting before
acknowledging, the remaining two acknowledging — does not time out: the
interval re-reads `this.apps.size`, sees 2 acknowledgments against 2
connected participants, and the migration ends COMPLETED with only two
APPLY acknowledgments, not FAILED. -/
theorem apply_wait_succeeds_after_disconnect :
    (startMigration envDisc stABC migOk).migration.status =
      MigrationStatus.COMPLETED ∧
    mapGet (startMigration envDisc stABC migOk).finalState.acknowledgments
      Phase.APPLY = some ["a", "b"] := by decide

/-- C1 (amended): the required acknowledgment count is not snapshotted at
the start of the wait; a quorum wait succeeds exactly when some interval
poll observes that the acknowledgment set's size equals the number of
participants connected at that same poll instant, so a mid-wait disconnect
of a not-yet-acknowledged participant lowers the requirement and lets the
wait succeed (Scenario D completes instead of timing out). -/
theorem wait_success_iff_live_quorum (st : CoordinatorState) (phase : Phase)
    (events : List WaitEvent) :
    (waitForAcknowledgments st phase events).1 = true ↔
      ∃ pre post, events = pre ++ WaitEvent.poll :: post ∧
        quorumReached (pre.foldl stepEvent
          { st with acknowledgments := mapSet st.acknowledgments phase [] })
          phase = true :=
  runWait_eq_true_iff phase events _

/-- C6: the acknowledgment store is keyed by phase name alone
(`Map<Phase, Set<string>>`) and `AckMessage` carries no migration
identifier, so recording an acknowledgment reads and writes nothing scoped
to a migration: whatever migration is current — including two different
migrations — the resulting acknowledgment sets are identical, i.e. an
acknowledgment sent for one migration's phase is indistinguishable from,
and counts as, one for any other migration's phase of the same name. -/
theorem ack_recording_ignores_current_migration (st : CoordinatorState)
    (appId : String) (msg : AckMessage) (m1 m2 : Option Migration) :
    (handleAcknowledgment { st with currentMigration := m1 } appId msg).acknowledgments =
      (handleAcknowledgment { st with currentMigration := m2 } appId msg).acknowledgments := rfl

/-- C7 (counterexample): the acknowledgment set is not reset before the
phase broadcast — in every run the first two operations are the ANNOUNCE
broadcast and then the reset (the reset lives inside
`waitForAcknowledgments`, which is awaited after `sendPhase`); moreover an
acknowledgment recorded before the wait begins is erased by that reset
(here `a`'s ANNOUNCE acknowledgment, recorded beforehand, leaves the set
empty after the wait starts). -/
theorem reset_follows_broadcast_concrete :
    (startMigration envHappy stABC migOk).ops.take 2 =
      [CoordOp.sendPhaseOp Phase.ANNOUNCE, CoordOp.resetAcks Phase.ANNOUNCE] ∧
    mapGet (waitForAcknowledgments
        (handleAcknowledgment stABC "a"
          { phase := Phase.ANNOUNCE, status := AckStatus.ACKNOWLEDGED,
            appId := "a", error := none })
        Phase.ANNOUNCE []).2.acknowledgments Phase.ANNOUNCE = some [] := by decide

/-- C7 (amended): in every run of `startMigration`, the acknowledgment set
of a gated phase is reset to empty at the start of that phase's wait,
immediately AFTER the corresponding phase broadcast: the run's operation
trace starts with the ANNOUNCE broadcast followed by the ANNOUNCE reset,
and every reset in the trace is immediately preceded by the broadcast of
its phase. -/
theorem reset_immediately_after_broadcast {DB : Type} (env : RunEnv DB)
    (st : CoordinatorState) (m : Migration) :
    (startMigration env st m).ops.take 2 =
      [CoordOp.sendPhaseOp Phase.ANNOUNCE, CoordOp.resetAcks Phase.ANNOUNCE] ∧
    ∀ pr ∈ (startMigration env st m).ops.zip (startMigration env st m).ops.tail,
      ∀ p, pr.2 = CoordOp.resetAcks p → pr.1 = CoordOp.sendPhaseOp p := by
  simp only [startMigration, sendPhase, setStatus, rollbackRun, finishRun]
  split
  · split
    · split
      · dsimp only
        decide
      · dsimp only
        decide
    · dsimp only
      decide
  · dsimp only
    decide

/-- C8 (counterexample): the triggering cause of a failure is not attached
to the migration object.  The same migration run under an
ANNOUNCE-quorum-timeout environment (executor never invoked) and under a
full-quorum environment in which the executor fails yields literally
identical migration objects, so the caller cannot read the cause off the
observed migration. -/
theorem failed_runs_indistinguishable :
    (startMigration envAnnTimeout stABC migBad).migration =
      (startMigration envHappy stABC migBad).migration ∧
    (startMigration envAnnTimeout stABC migBad).executorCalls = 0 ∧
    (startMigration envHappy stABC migBad).executorCalls = 1 ∧
    (startMigration envHappy stABC migBad).migration.status =
      MigrationStatus.FAILED := by decide

/-- C8 (amended): `startMigration` always returns — every wait rejection
and executor failure is funnelled through `rollback` by the surrounding
`try`/`catch`, so the caller never sees an exception — and it returns only
with the migration in a terminal status, COMPLETED or FAILED; the
triggering cause of a FAILED run, however, is only logged, not attached to
the migration object (`Migration` has no field for it). -/
theorem startMigration_terminal_status {DB : Type} (env : RunEnv DB)
    (st : CoordinatorState) (m : Migration) :
    (startMigration env st m).migration.status = MigrationStatus.COMPLETED ∨
    (startMigration env st m).migration.status = MigrationStatus.FAILED := by
  simp only [startMigration, sendPhase, setStatus, rollbackRun, finishRun]
  split
  · split
    · split
      · left; rfl
      · right; rfl
    · right; rfl
  · right; rfl

/-- C9: `handleAcknowledgment` inserts the connection's identifier keyed
only by the message's phase: messages differing in `status` (ERROR vs
ACKNOWLEDGED), in the embedded `appId` field, or in the error detail
produce identical coordinator states, and the handler never touches the
current migration or the connected set — an ERROR acknowledgment counts
toward quorum exactly like an ACKNOWLEDGED one and never fails the
migration. -/
theorem ack_status_not_inspected (st : CoordinatorState) (appId : String)
    (p : Phase) (s1 s2 : AckStatus) (a1 a2 : String) (e1 e2 : Option String) :
    handleAcknowledgment st appId
        { phase := p, status := s1, appId := a1, error := e1 } =
      handleAcknowledgment st appId
        { phase := p, status := s2, appId := a2, error := e2 } ∧
    (handleAcknowledgment st appId
        { phase := p, status := s1, appId := a1, error := e1 }).currentMigration =
      st.currentMigration ∧
    (handleAcknowledgment st appId
        { phase := p, status := s1, appId := a1, error := e1 }).apps = st.apps :=
  ⟨rfl, rfl, rfl⟩

/-- C2 (counterexample): a participant that connects after the APPLY wait
has begun IS counted: with `a` and `b` connected at wait start and both
acknowledging, a mid-wait joiner `c` that never acknowledges makes every
poll see 2 acknowledgments against 3 live participants, so the migration
ends FAILED — and with `c` also acknowledging the same run ends
COMPLETED. -/
theorem late_joiner_blocks_completion :
    (startMigration envLateNoAck stAB migOk).migration.status =
      MigrationStatus.FAILED ∧
    mapGet (startMigration envLateNoAck stAB migOk).finalState.acknowledgments
      Phase.APPLY = some ["a", "b"] ∧
    (startMigration envLateAck stAB migOk).migration.status =
      MigrationStatus.COMPLETED := by decide

/-- C2 (amended): a late joiner is required to acknowledge.  If a new
participant connects after a phase's acknowledgment wait has begun and,
for the rest of the schedule, only polls and acknowledgments from the
originally connected participants occur (the joiner never acknowledges,
nobody disconnects), the wait times out: the live participant count stays
one above what the original participants can reach. -/
theorem late_joiner_required_for_quorum (st : CoordinatorState) (c : String)
    (evs : List WaitEvent) (p : Phase) (hc : c ∉ st.apps)
    (hev : ∀ e ∈ evs, benignFor st.apps e = true) :
    (waitForAcknowledgments st p (WaitEvent.connect c :: evs)).1 = false := by
  unfold waitForAcknowledgments
  simp only [runWait]
  apply runWait_stalls_without_c st.apps c p evs
  · simp only [connectApp, setAdd]
    rw [if_neg hc]
  · intro s hs
    simp only [connectApp] at hs
    rw [mapGet_mapSet_self] at hs
    injection hs with hs
    subst hs
    exact ⟨List.nodup_nil, by simp⟩
  · exact hev

/-- C2 (witness): the amended late-joiner statement at the concrete
scenario of `appLateNoAck`. -/
theorem late_joiner_required_concrete :
    (waitForAcknowledgments stAB Phase.APPLY
      (WaitEvent.connect "c" ::
        [ackEvent Phase.APPLY "a", ackEvent Phase.APPLY "b",
         WaitEvent.poll])).1 = false :=
  late_joiner_required_for_quorum stAB "c"
    [ackEvent Phase.APPLY "a", ackEvent Phase.APPLY "b", WaitEvent.poll]
    Phase.APPLY (by decide) (by decide)

/-- C3: the executor is transactional.  For any statement list free of the
executor's own transaction-control keywords: the pooled client is released
on every exit path; if the sequential reference run of the statements (in
listed order) succeeds, `executeMigrations` reports success and the
committed schema is exactly the reference result; if the reference run
fails with error `e`, `executeMigrations` reports failure carrying `e` and
the committed schema is unchanged — no partial schema change survives —
with no transaction left open. -/
theorem executor_transactional {DB : Type} (sem : DB → String → Except String DB)
    (db : DB) (sql : List String)
    (hctrl : ∀ q ∈ sql, isTxnControl q = false) :
    (executeMigrations sem db sql).client.released = true ∧
    (∀ dF, applyStatements sem db sql = Except.ok dF →
      (executeMigrations sem db sql).success = true ∧
      (executeMigrations sem db sql).error = none ∧
      (executeMigrations sem db sql).client.committed = dF ∧
      (executeMigrations sem db sql).client.txn = none) ∧
    (∀ e, applyStatements sem db sql = Except.error e →
      (executeMigrations sem db sql).success = false ∧
      (executeMigrations sem db sql).error = some e ∧
      (executeMigrations sem db sql).client.committed = db ∧
      (executeMigrations sem db sql).client.txn = none) := by
  have hbegin : runQuery sem ⟨db, none, false⟩ "BEGIN" =
      Except.ok ⟨db, some db, false⟩ := by
    simp [runQuery]
  obtain ⟨hok, herr⟩ := runStatementLoop_spec sem sql ⟨db, some db, false⟩ db rfl hctrl
  cases happ : applyStatements sem db sql with
  | ok dF0 =>
    have hloop := hok dF0 happ
    have hcommit : runQuery sem (⟨db, some dF0, false⟩ : PgClient DB) "COMMIT" =
        Except.ok ⟨dF0, none, false⟩ := by
      simp [runQuery]
    have hres : executeMigrations sem db sql =
        { success := true, error := none, client := ⟨dF0, none, true⟩ } := by
      simp only [executeMigrations, hbegin, hloop, hcommit]
    rw [hres]
    refine ⟨rfl, ?_, ?_⟩
    · intro dF hF
      injection hF with hF
      subst hF
      exact ⟨rfl, rfl, rfl, rfl⟩
    · intro e hE
      exact absurd hE (by simp)
  | error e0 =>
    obtain ⟨d2, hloop⟩ := herr e0 happ
    have hrb : runQuery sem (⟨db, some d2, false⟩ : PgClient DB) "ROLLBACK" =
        Except.ok ⟨db, none, false⟩ := by
      simp [runQuery]
    have hres : executeMigrations sem db sql =
        { success := false, error := some e0, client := ⟨db, none, true⟩ } := by
      simp only [executeMigrations, hbegin, hloop, hrb]
    rw [hres]
    refine ⟨rfl, ?_, ?_⟩
    · intro dF hF
      exact absurd hF (by simp)
    · intro e hE
      injection hE with hE
      subst hE
      exact ⟨rfl, rfl, rfl, rfl⟩

/-- C3 (witness): the transactional contract at two concrete runs under
`semLog`: an all-success list commits and releases; a list whose second
statement fails leaves the committed schema empty. -/
theorem executor_transactional_concrete :
    (executeMigrations semLog [] ["s1", "s2"]).client.released = true ∧
    (executeMigrations semLog [] ["s1", "FAIL"]).client.committed = [] := by
  constructor
  · exact (executor_transactional semLog [] ["s1", "s2"] (by decide)).1
  · exact ((executor_transactional semLog [] ["s1", "FAIL"]
      (by decide)).2.2 "syntax error at FAIL" rfl).2.2.1

/-- C4: a run whose migration ends COMPLETED invoked the executor exactly
once with a successful result, set a completion timestamp, and broadcast
CONFIRM; moreover no run ever invokes the executor more than once, and a
run whose executor call failed never ends COMPLETED (its status is
FAILED). -/
theorem completed_implies_executor_once_ok {DB : Type} (env : RunEnv DB)
    (st : CoordinatorState) (m : Migration) :
    ((startMigration env st m).migration.status = MigrationStatus.COMPLETED →
      (startMigration env st m).executorCalls = 1 ∧
      (∃ er, (startMigration env st m).executorResult = some er ∧
        er.success = true) ∧
      (startMigration env st m).migration.completedAt.isSome = true ∧
      ∃ b ∈ (startMigration env st m).broadcasts, b.phase = Phase.CONFIRM) ∧
    (startMigration env st m).executorCalls ≤ 1 ∧
    (∀ er, (startMigration env st m).executorResult = some er →
      er.success = false →
      (startMigration env st m).migration.status = MigrationStatus.FAILED) := by
  simp only [startMigration, sendPhase, setStatus, rollbackRun, finishRun]
  split
  next h1 =>
    split
    next h2 =>
      split
      next h3 =>
        refine ⟨fun _ => ⟨rfl,
          ⟨executeMigrations env.sem env.db m.sql, rfl, h2⟩, rfl, ?_⟩,
          by dsimp only; omega, ?_⟩
        · have hlast : ∀ (L : List PhaseBroadcast) (x : PhaseBroadcast),
              x.phase = Phase.CONFIRM →
              ∃ b ∈ L ++ [x], b.phase = Phase.CONFIRM :=
            fun L x hx => ⟨x, by simp, hx⟩
          exact hlast _ _ rfl
        · intro er her hfail
          injection her with her
          subst her
          rw [h2] at hfail
          exact absurd hfail (by simp)
      next h3 =>
        refine ⟨?_, by dsimp only; omega, ?_⟩
        · intro hcomp
          simp at hcomp
        · intro er her hfail
          rfl
    next h2 =>
      refine ⟨?_, by dsimp only; omega, ?_⟩
      · intro hcomp
        simp at hcomp
      · intro er her hfail
        rfl
  next h1 =>
    refine ⟨?_, by dsimp only; omega, ?_⟩
    · intro hcomp
      simp at hcomp
    · intro er her
      exact absurd her (by simp)

/-- C5: a run whose ANNOUNCE quorum wait times out ends FAILED, the
executor is never invoked, and the run's broadcasts are exactly ANNOUNCE
followed by ROLLBACK, the ROLLBACK fanned out to every participant
connected at rollback time. -/
theorem announce_timeout_fails_without_executor {DB : Type} (env : RunEnv DB)
    (st : CoordinatorState) (m : Migration)
    (h : (waitForAcknowledgments
        { st with currentMigration := some { m with status := MigrationStatus.ANNOUNCING, startedAt := 0 } }
        Phase.ANNOUNCE env.announceEvents).1 = false) :
    (startMigration env st m).migration.status = MigrationStatus.FAILED ∧
    (startMigration env st m).executorCalls = 0 ∧
    (startMigration env st m).broadcasts.map PhaseBroadcast.phase =
      [Phase.ANNOUNCE, Phase.ROLLBACK] ∧
    ∀ b ∈ (startMigration env st m).broadcasts, b.phase = Phase.ROLLBACK →
      b.recipients = (waitForAcknowledgments
        { st with currentMigration := some { m with status := MigrationStatus.ANNOUNCING, startedAt := 0 } }
        Phase.ANNOUNCE env.announceEvents).2.apps := by
  simp only [startMigration, sendPhase, setStatus, rollbackRun, finishRun]
  split
  next htrue =>
    rw [h] at htrue
    exact absurd htrue (by simp)
  next hfalse =>
    refine ⟨rfl, rfl, rfl, ?_⟩
    intro b hb hph
    simp only [List.nil_append, List.cons_append, List.mem_cons,
      List.not_mem_nil, or_false, List.mem_singleton] at hb
    rcases hb with hb | hb
    · subst hb
      simp at hph
    · subst hb
      rfl

/-- C5 (witness): the ANNOUNCE-timeout contract at the concrete
three-participant scenario in which only two participants acknowledge. -/
theorem announce_timeout_concrete :
    (startMigration envAnnTimeout stABC migOk).migration.status =
      MigrationStatus.FAILED ∧
    (startMigration envAnnTimeout stABC migOk).executorCalls = 0 ∧
    (startMigration envAnnTimeout stABC migOk).broadcasts.map
      PhaseBroadcast.phase = [Phase.ANNOUNCE, Phase.ROLLBACK] ∧
    ∀ b ∈ (startMigration envAnnTimeout stABC migOk).broadcasts,
      b.phase = Phase.ROLLBACK →
      b.recipients = (waitForAcknowledgments
        { stABC with currentMigration := some { migOk with status := MigrationStatus.ANNOUNCING, startedAt := 0 } }
        Phase.ANNOUNCE envAnnTimeout.announceEvents).2.apps :=
  announce_timeout_fails_without_executor envAnnTimeout stABC migOk (by decide)

/-- C10: with no participant connected at the start of either gated wait
and nothing but interval polls in either schedule (nobody is there to
connect or acknowledge), both waits succeed at their first poll — zero
required equals zero received — and, provided the executor call succeeds,
the migration ends COMPLETED with both acknowledgment sets still empty. -/
theorem no_participants_migration_completes {DB : Type} (env : RunEnv DB)
    (st : CoordinatorState) (m : Migration)
    (happs : st.apps = [])
    (hann : env.announceEvents ≠ [])
    (hannp : ∀ e ∈ env.announceEvents, e = WaitEvent.poll)
    (happly : env.applyEvents ≠ [])
    (happlyp : ∀ e ∈ env.applyEvents, e = WaitEvent.poll)
    (hexec : (executeMigrations env.sem env.db m.sql).success = true) :
    (startMigration env st m).migration.status = MigrationStatus.COMPLETED ∧
    mapGet (startMigration env st m).finalState.acknowledgments
      Phase.ANNOUNCE = some [] ∧
    mapGet (startMigration env st m).finalState.acknowledgments
      Phase.APPLY = some [] := by
  have hw1 := waitFor_no_apps
    { st with currentMigration := some { m with status := MigrationStatus.ANNOUNCING, startedAt := 0 } }
    Phase.ANNOUNCE env.announceEvents happs hann hannp
  have hw2 := waitFor_no_apps
    { st with
      currentMigration := some { m with status := MigrationStatus.ANNOUNCING, startedAt := 0 }
      acknowledgments := mapSet st.acknowledgments Phase.ANNOUNCE [] }
    Phase.APPLY env.applyEvents happs happly happlyp
  simp only [startMigration, sendPhase, setStatus, rollbackRun, finishRun]
  rw [hw1]
  simp only [hexec, if_true]
  rw [hw2]
  refine ⟨rfl, ?_, ?_⟩
  · show mapGet (mapSet (mapSet st.acknowledgments Phase.ANNOUNCE [])
      Phase.APPLY []) Phase.ANNOUNCE = some []
    rw [mapGet_mapSet_ne _ _ (by decide), mapGet_mapSet_self]
  · show mapGet (mapSet (mapSet st.acknowledgments Phase.ANNOUNCE [])
      Phase.APPLY []) Phase.APPLY = some []
    rw [mapGet_mapSet_self]

/-- C10 (witness): the zero-participant run at the concrete environment
`envNone`. -/
theorem no_participants_concrete :
    (startMigration envNone stNone migOk).migration.status =
      MigrationStatus.COMPLETED ∧
    mapGet (startMigration envNone stNone migOk).finalState.acknowledgments
      Phase.ANNOUNCE = some [] ∧
    mapGet (startMigration envNone stNone migOk).finalState.acknowledgments
      Phase.APPLY = some [] :=
  no_participants_migration_completes envNone stNone migOk rfl (by decide)
    (by decide) (by decide) (by decide) (by decide)

end RtDbMigrator
